import Mathlib

/-!
Shallow embedding of the clipboard change-detection watcher
(`clip` package, `clipboard_darwin.go`) and of the consumer glue
(`main.go`: `handle`/`handleNum`).

The native clipboard (cgo calls `clipboard_read_string`,
`clipboard_read_image`, `clipboard_change_count`) is an external
collaborator; its per-call answers are inputs of the embedded functions:
each poll tick is given the counter value the call would have sampled and
the payload the native read would have produced. Timestamps
(`time.Now().UnixMilli()`) are `Int` milliseconds supplied as tick inputs.
Byte slices are `List Nat`.
-/

namespace Clip

/-- Clipboard data format (Go `type Format int`; `FmtText`, `FmtImage`). -/
inductive Format where
  | fmtText
  | fmtImage
deriving DecidableEq

/-- Error values of the package (Go `errUnavailable`, `errUnsupported`). -/
inductive ClipError where
  | unavailable
  | unsupported
deriving DecidableEq

/-- Answer of one native read call (`clipboard_read_string` /
`clipboard_read_image`): `absent` models `data == nil` after the call;
`present bytes` models a non-nil `data` pointer holding `bytes.length`
bytes (`n = bytes.length`, which may be zero). -/
inductive NativeRead where
  | absent
  | present (bytes : List Nat)
deriving DecidableEq

/-- Go `Read(t Format)`: `if data == nil { return nil, errUnavailable }`;
`if n == 0 { return nil, nil }`; otherwise the bytes and no error.
The result pair is (payload, error); `none` in the first component models
Go's `nil` byte slice (whose length is zero). The format argument selects
only which native entry point produced `resp`; the nil/zero-length handling
is the same for every format, as in the source. -/
def Read (t : Format) (resp : NativeRead) : Option (List Nat) × Option ClipError :=
  match t, resp with
  | _, .absent => (none, some .unavailable)
  | _, .present bs => if bs.length = 0 then (none, none) else (some bs, none)

/-- Go `string(b)` on a byte slice, as used by `AdaptWatchDoubleText`
(`text := string(b)`). The only fact the watcher logic relies on is that
the string is empty exactly when the slice is. -/
def bytesToString (bs : List Nat) : String :=
  String.mk (bs.map Char.ofNat)

/-- One `<-ti.C` tick of the `Watch` poll loop (lines 140-149):
sample `this`; if `lastCount != this`, call `Read`; `if b == nil { continue }`
(note: `lastCount` is left unchanged on that path); otherwise emit `b` and
set `lastCount = this`. Result: (new `lastCount`, whether a backend read was
performed, emission). The consumer is abstracted as always ready here; the
one-slot channel itself is modelled by `watchTickChan` below. -/
def watchTick (t : Format) (lastCount thisCount : Int) (resp : NativeRead) :
    Int × Bool × Option (List Nat) :=
  if lastCount ≠ thisCount then
    match (Read t resp).1 with
    | none => (lastCount, true, none)
    | some b => (thisCount, true, some b)
  else (lastCount, false, none)

/-- Run of the `Watch` poll loop over a list of ticks, each tick giving the
sampled counter and the native read's answer. Result: (final `lastCount`,
number of backend reads performed, list of emitted payloads in order). -/
def watchRun (t : Format) : Int → List (Int × NativeRead) → Int × Nat × List (List Nat)
  | lastCount, [] => (lastCount, 0, [])
  | lastCount, (c, resp) :: ticks =>
    let step := watchTick t lastCount c resp
    let rest := watchRun t step.1 ticks
    (rest.1, (if step.2.1 then 1 else 0) + rest.2.1,
      match step.2.2 with
      | none => rest.2.2
      | some b => b :: rest.2.2)

/-- Go send on a buffered channel of capacity one (`recv <- b` with
`recv := make(chan []byte, 1)`): per the Go language semantics the send
completes exactly when the buffer slot is free; on a full slot the sending
goroutine blocks, modelled as result `none` (the step cannot complete
without the consumer first receiving). `some slot2` is the buffer after a
completed send. -/
def chanSend {α : Type} (slot : Option α) (v : α) : Option (Option α) :=
  match slot with
  | none => some (some v)
  | some _ => none

/-- Modelled from the spec's words, for comparison with `chanSend`: a
non-blocking emit that silently drops `v` when the single slot is already
full, keeping the oldest unconsumed event, and always completes. -/
def specDropEmit {α : Type} (slot : Option α) (v : α) : Option α :=
  match slot with
  | none => some v
  | some w => some w

/-- One `Watch` tick with the output channel's single buffer slot made
explicit. Result `none` means the goroutine is blocked in `recv <- b`
and the tick (hence the poll loop) does not complete; `some (lc, slot)`
is the completed tick's new `lastCount` and buffer content. -/
def watchTickChan (t : Format) (lastCount : Int) (slot : Option (List Nat))
    (thisCount : Int) (resp : NativeRead) : Option (Int × Option (List Nat)) :=
  if lastCount ≠ thisCount then
    match (Read t resp).1 with
    | none => some (lastCount, slot)
    | some b =>
      match chanSend slot b with
      | none => none
      | some slot2 => some (thisCount, slot2)
  else some (lastCount, slot)

/-- Per-session state of `AdaptWatchDoubleText` (lines 160-163): the
last-observed counter, the miss streak `missCount`, the pending candidate
`lastText`, the timestamp `lastMill`, and the ticker's current period in
milliseconds (`ti`). -/
structure AdaptState where
  lastCount : Int
  missCount : Nat
  lastText : String
  lastMill : Int
  interval : Nat
deriving DecidableEq

/-- Initial state of an `AdaptWatchDoubleText` session: counter baseline
`c0` from the initial `clipboard_change_count()` call, `missCount = 0`,
`lastText = ""`, `lastMill = t0` (session start time), and the ticker
created by `time.NewTicker(time.Millisecond * 200)`. -/
def adaptInit (c0 t0 : Int) : AdaptState :=
  { lastCount := c0, missCount := 0, lastText := "", lastMill := t0, interval := 200 }

/-- The trailing `if lastCount == this` block of the `AdaptWatchDoubleText`
tick (lines 194-200): increment `missCount`; when it reaches exactly 50 or
exceeds 100, reset the ticker to 200ms and zero `missCount`. It runs after
the change block as well (which has just set `lastCount = this`), unless
that block hit a `continue`. The emission is threaded through unchanged. -/
def missStep (st : AdaptState) (thisCount : Int) (emit : Option String) :
    AdaptState × Option String :=
  if st.lastCount = thisCount then
    if st.missCount + 1 = 50 ∨ st.missCount + 1 > 100 then
      ({ st with missCount := 0, interval := 200 }, emit)
    else ({ st with missCount := st.missCount + 1 }, emit)
  else (st, emit)

/-- One `<-ti.C` tick of `AdaptWatchDoubleText` (lines 172-200): on a
counter change, read text; `continue` on a nil payload or empty string
(state untouched); otherwise either emit the text as confirmed
(`text == lastText && currMill-lastMill < 500`, clearing `lastText`) or
record it as the new candidate; in both cases set `lastMill`, `lastCount`,
reset the ticker to 100ms and `missCount` to 0 — and then fall through to
`missStep`, whose guard now holds. Result: (state after the tick, emission). -/
def adaptTick (st : AdaptState) (now thisCount : Int) (resp : NativeRead) :
    AdaptState × Option String :=
  if st.lastCount ≠ thisCount then
    match (Read Format.fmtText resp).1 with
    | none => (st, none)
    | some b =>
      let text := bytesToString b
      if text = "" then (st, none)
      else
        let hit := text = st.lastText ∧ now - st.lastMill < 500
        let emit : Option String := if hit then some text else none
        let lt : String := if hit then "" else text
        let st1 : AdaptState :=
          { lastCount := thisCount, lastText := lt, lastMill := now,
            missCount := 0, interval := 100 }
        missStep st1 thisCount emit
  else
    missStep st thisCount none

/-- Run of the `AdaptWatchDoubleText` loop over ticks, each tick giving the
current time in milliseconds, the sampled counter, and the native read's
answer. Result: (final state, emitted confirmed texts in order). -/
def adaptRun : AdaptState → List (Int × Int × NativeRead) → AdaptState × List String
  | st, [] => (st, [])
  | st, (now, c, resp) :: ticks =>
    let step := adaptTick st now c resp
    let rest := adaptRun step.1 ticks
    (rest.1,
      match step.2 with
      | none => rest.2
      | some s => s :: rest.2)

/-- Number of strict increases along the counter sequence `prev :: cs`. -/
def strictIncs (prev : Int) : List Int → Nat
  | [] => 0
  | c :: cs => (if prev < c then 1 else 0) + strictIncs c cs

/-- The counter samples are non-decreasing starting from `prev` (the host
counter is monotonically non-decreasing). -/
def monoFrom (prev : Int) : List Int → Bool
  | [] => true
  | c :: cs => decide (prev ≤ c) && monoFrom c cs

/-- The native read's answer yields a present (non-nil) payload through
`Read`: a non-nil data pointer with a non-zero byte count. -/
def respPresent : NativeRead → Bool
  | .absent => false
  | .present bs => decide (bs.length ≠ 0)

/-- Every tick's native read answer in the trace is present. -/
def allPresent : List (Int × NativeRead) → Bool
  | [] => true
  | (_, r) :: ts => respPresent r && allPresent ts

/-- Go `handleNum` from the consumer glue (`main.go`): two independent
range checks; the list collects the arguments passed to `handleS` (which
formats the value as a local date-time and notifies). `num / 1000` is Go
integer division, which on the guarded positive range agrees with `Int`
division. -/
def handleNum (num : Int) : List Int :=
  (if num > 10000000 ∧ num < 10013221020 then [num] else []) ++
  (if num > 10013221020 ∧ num < 2101322102000 then [num / 1000] else [])

/-! Helper lemmas shared by the claim theorems. -/

/-- A nonempty byte slice converts to a nonempty Go string. -/
lemma bytesToString_ne_empty {bs : List Nat} (h : bs ≠ []) : bytesToString bs ≠ "" := by
  cases bs with
  | nil => exact absurd rfl h
  | cons x xs =>
    intro hc
    have hd := congrArg String.data hc
    simp [bytesToString] at hd

/-- A payload produced by `Read` is nonempty: the `n == 0` path returns a
nil slice, so only byte slices of positive length come back non-nil. -/
lemma Read_fst_some {t : Format} {resp : NativeRead} {b : List Nat}
    (h : (Read t resp).1 = some b) : b ≠ [] := by
  cases resp with
  | absent => simp [Read] at h
  | present bs =>
    by_cases hb : bs.length = 0
    · simp [Read, hb] at h
    · simp [Read, hb] at h
      intro hnil
      exact hb (by simp [h, hnil])

/-- The trailing miss block threads the emission through unchanged. -/
lemma missStep_snd (st : AdaptState) (c : Int) (e : Option String) :
    (missStep st c e).2 = e := by
  unfold missStep
  split
  · split <;> rfl
  · rfl

/-- A present answer with a nonzero byte count passes through `Read`. -/
lemma respPresent_read {t : Format} {r : NativeRead} (h : respPresent r = true) :
    ∃ bs, (Read t r).1 = some bs := by
  cases r with
  | absent => simp [respPresent] at h
  | present bs =>
    simp [respPresent] at h
    exact ⟨bs, by simp [Read, h]⟩

/-- C1, counterexample: on a tick whose sampled counter (1) differs from the
baseline (0) and whose read comes back absent, neither `Watch` nor
`AdaptWatchDoubleText` advances the last-observed counter to the sampled
value 1 — the `continue` skips the `lastCount = this` assignment. -/
theorem watch_absent_keeps_baseline_cex :
    (watchTick Format.fmtText 0 1 NativeRead.absent).1 ≠ 1 ∧
    (adaptTick (adaptInit 0 0) 5 1 NativeRead.absent).1.lastCount ≠ 1 := by
  decide

/-- C1, amended: when a poll detects a counter change but the read returns
absent, the loop `continue`s: the session state, including the last-observed
counter baseline, is left unchanged, and a tick that still samples a
differing counter performs the read again — the change is retried, not
treated as consumed. -/
theorem absent_read_does_not_advance_baseline :
    (∀ (t : Format) (lc c : Int), (watchTick t lc c NativeRead.absent).1 = lc) ∧
    (∀ (st : AdaptState) (now c : Int), st.lastCount ≠ c →
      (adaptTick st now c NativeRead.absent).1 = st) ∧
    (∀ (t : Format) (lc c : Int), lc ≠ c →
      (watchTick t lc c NativeRead.absent).2.1 = true) := by
  refine ⟨fun t lc c => ?_, fun st now c h => ?_, fun t lc c h => ?_⟩
  · by_cases hc : lc ≠ c <;> simp [watchTick, Read, hc]
  · simp [adaptTick, Read, h]
  · simp [watchTick, Read, h]

/-- C1, witness for the amended theorem at concrete inputs. -/
theorem absent_read_does_not_advance_baseline_witness :
    ((adaptInit 0 0).lastCount ≠ 1 ∧ (0 : Int) ≠ 1) ∧
    ((watchTick Format.fmtText 0 1 NativeRead.absent).1 = 0 ∧
     (adaptTick (adaptInit 0 0) 5 1 NativeRead.absent).1 = adaptInit 0 0 ∧
     (watchTick Format.fmtText 0 1 NativeRead.absent).2.1 = true) :=
  ⟨⟨by decide, by decide⟩,
   absent_read_does_not_advance_baseline.1 Format.fmtText 0 1,
   absent_read_does_not_advance_baseline.2.1 (adaptInit 0 0) 5 1 (by decide),
   absent_read_does_not_advance_baseline.2.2 Format.fmtText 0 1 (by decide)⟩

/-- C4: text "42" (bytes [52, 50]) arriving as a detected change at t=0ms,
again at t=300ms, and a third time at t=310ms yields exactly one confirmed
emission of "42"; after the confirming second tick the pending candidate
`lastText` has been cleared to "", so the third identical copy only becomes
a new candidate. -/
theorem double_submit_scenario_42 :
    (adaptRun (adaptInit 0 0)
      [(0, 1, NativeRead.present [52, 50]),
       (300, 2, NativeRead.present [52, 50]),
       (310, 3, NativeRead.present [52, 50])]).2 = ["42"] ∧
    (adaptRun (adaptInit 0 0)
      [(0, 1, NativeRead.present [52, 50]),
       (300, 2, NativeRead.present [52, 50])]).1.lastText = "" := by
  decide

/-- C7, counterexample: a fresh `AdaptWatchDoubleText` session's ticker is
created with `time.NewTicker(time.Millisecond * 200)`, so the poll interval
does not start at the fast 100ms rate. -/
theorem initial_interval_cex : (adaptInit 0 0).interval ≠ 100 := by
  decide

/-- C7, amended: a text double-submit watch session starts at the slow
200ms poll interval; the fast 100ms rate is only entered once a change is
detected (`ti.Reset(100ms)` in the change branch). -/
theorem initial_interval_is_slow (c0 t0 : Int) : (adaptInit c0 t0).interval = 200 :=
  rfl

/-- C8: for every format, `Read` of an absent format returns a nil payload
together with the `Unavailable` error, while a present-but-empty value
returns a nil (zero-length) payload with a nil error; the two outcomes are
distinguished by the error component. -/
theorem read_absent_vs_empty :
    (∀ t : Format, Read t NativeRead.absent = (none, some ClipError.unavailable)) ∧
    (∀ t : Format, Read t (NativeRead.present []) = (none, none)) ∧
    (∀ t : Format, (Read t NativeRead.absent).2 ≠ (Read t (NativeRead.present [])).2) := by
  refine ⟨fun t => rfl, fun t => rfl, fun t => by simp [Read]⟩

/-- C10: a positive integer `n` carried by a confirmed text is converted
exactly when 10000000 < n < 10013221020 (taken as Unix seconds, passed
through unchanged) or 10013221020 < n < 2101322102000 (taken as Unix
milliseconds, divided by 1000); the boundary value 10013221020 itself and
every value outside both open intervals produce no conversion. -/
theorem handleNum_ranges (n : Int) (hpos : 0 < n) :
    (10000000 < n ∧ n < 10013221020 → handleNum n = [n]) ∧
    (10013221020 < n ∧ n < 2101322102000 → handleNum n = [n / 1000]) ∧
    (¬ ((10000000 < n ∧ n < 10013221020) ∨
        (10013221020 < n ∧ n < 2101322102000)) → handleNum n = []) ∧
    handleNum 10013221020 = [] := by
  refine ⟨?_, ?_, ?_, by decide⟩
  · rintro ⟨h1, h2⟩
    simp only [handleNum, gt_iff_lt]
    rw [if_pos ⟨h1, h2⟩, if_neg (by omega)]
    rfl
  · rintro ⟨h1, h2⟩
    simp only [handleNum, gt_iff_lt]
    rw [if_neg (by omega), if_pos ⟨h1, h2⟩]
    rfl
  · intro h
    simp only [handleNum, gt_iff_lt]
    rw [if_neg (fun hc => h (Or.inl hc)), if_neg (fun hc => h (Or.inr hc))]
    rfl

/-- With every read present, the reads performed along a monotone trace
count exactly the strict counter increases. -/
lemma watchRun_reads_eq (t : Format) :
    ∀ (lc : Int) (ticks : List (Int × NativeRead)),
      monoFrom lc (ticks.map Prod.fst) = true →
      allPresent ticks = true →
      (watchRun t lc ticks).2.1 = strictIncs lc (ticks.map Prod.fst) := by
  intro lc ticks
  induction ticks generalizing lc with
  | nil => intro _ _; rfl
  | cons tk ticks ih =>
    obtain ⟨c, resp⟩ := tk
    intro hm hp
    simp only [List.map_cons, monoFrom, Bool.and_eq_true, decide_eq_true_eq] at hm
    obtain ⟨hle, hm'⟩ := hm
    simp only [allPresent, Bool.and_eq_true] at hp
    obtain ⟨hpres, hp'⟩ := hp
    by_cases heq : lc = c
    · subst heq
      have hstep : watchTick t lc lc resp = (lc, false, none) := by
        simp [watchTick]
      simp only [watchRun, hstep, List.map_cons, strictIncs, lt_irrefl, if_false]
      simpa using ih lc hm' hp'
    · have hlt : lc < c := lt_of_le_of_ne hle heq
      obtain ⟨bs, hbs⟩ := respPresent_read (t := t) hpres
      have hstep : watchTick t lc c resp = (c, true, some bs) := by
        simp [watchTick, heq, hbs]
      simp only [watchRun, hstep, List.map_cons, strictIncs, if_pos hlt]
      simpa using ih c hm' hp'

/-- C2, counterexample: starting from baseline 0, two ticks both sampling
counter 1 with absent reads perform two backend reads, though the counter
strictly increased only once — the absent read leaves the baseline at 0, so
the same change triggers a read again. -/
theorem reads_exceed_increases_cex :
    (watchRun Format.fmtText 0 [(1, NativeRead.absent), (1, NativeRead.absent)]).2.1 = 2 ∧
    strictIncs 0 ([(1, NativeRead.absent), (1, NativeRead.absent)].map Prod.fst) = 1 ∧
    monoFrom 0 ([(1, NativeRead.absent), (1, NativeRead.absent)].map Prod.fst) = true ∧
    ¬ (watchRun Format.fmtText 0 [(1, NativeRead.absent), (1, NativeRead.absent)]).2.1 ≤
        strictIncs 0 ([(1, NativeRead.absent), (1, NativeRead.absent)].map Prod.fst) := by
  decide

/-- C2, amended: a tick whose sample equals the last-observed counter
performs no backend read, unconditionally; and provided every triggered
read returns a present payload (and the counter samples are non-decreasing,
as the host guarantees), the number of backend reads equals — hence is at
most — the number of strict counter increases. Without the present-read
proviso the bound fails, as the counterexample shows. -/
theorem reads_bound_when_all_present (t : Format) (lc : Int)
    (ticks : List (Int × NativeRead))
    (hm : monoFrom lc (ticks.map Prod.fst) = true)
    (hp : allPresent ticks = true) :
    (watchRun t lc ticks).2.1 = strictIncs lc (ticks.map Prod.fst) ∧
    ∀ resp : NativeRead, (watchTick t lc lc resp).2.1 = false :=
  ⟨watchRun_reads_eq t lc ticks hm hp, fun resp => by simp [watchTick]⟩

/-- C2, witness for the amended theorem on a concrete monotone trace. -/
theorem reads_bound_when_all_present_witness :
    monoFrom 0 ([(1, NativeRead.present [7]), (1, NativeRead.present [7]),
      (3, NativeRead.present [8])].map Prod.fst) = true ∧
    allPresent [(1, NativeRead.present [7]), (1, NativeRead.present [7]),
      (3, NativeRead.present [8])] = true ∧
    ((watchRun Format.fmtText 0 [(1, NativeRead.present [7]), (1, NativeRead.present [7]),
        (3, NativeRead.present [8])]).2.1 =
      strictIncs 0 ([(1, NativeRead.present [7]), (1, NativeRead.present [7]),
        (3, NativeRead.present [8])].map Prod.fst) ∧
     ∀ resp : NativeRead, (watchTick Format.fmtText 0 0 resp).2.1 = false) :=
  ⟨by decide, by decide,
   reads_bound_when_all_present Format.fmtText 0 _ (by decide) (by decide)⟩

/-- C3, counterexample: with the single buffer slot already holding [9], a
tick that detects a change and reads [7] does not complete — the plain
channel send blocks the poll loop (`none`), rather than dropping the
emission and proceeding as the non-blocking emit of the spec's words
(`specDropEmit`) would. -/
theorem full_slot_blocks_cex :
    watchTickChan Format.fmtText 0 (some [9]) 1 (NativeRead.present [7]) = none ∧
    chanSend (some [9]) ([7] : List Nat) ≠ some (specDropEmit (some [9]) ([7] : List Nat)) := by
  decide

/-- C3, amended: emission on the single-slot output stream is a plain
blocking channel send: with a free slot the payload is delivered and the
tick completes; with a full slot the send — and with it the poll loop —
blocks until the consumer receives, and no emission is dropped. -/
theorem emit_blocks_on_full_slot (t : Format) (lc c : Int) (w bs : List Nat)
    (hne : lc ≠ c) (hbs : bs ≠ []) :
    chanSend (some w) bs = none ∧
    chanSend (none : Option (List Nat)) bs = some (some bs) ∧
    watchTickChan t lc (some w) c (NativeRead.present bs) = none ∧
    watchTickChan t lc none c (NativeRead.present bs) = some (c, some bs) := by
  have hlen : ¬ bs.length = 0 := fun h0 => hbs (List.length_eq_zero.mp h0)
  refine ⟨rfl, rfl, ?_, ?_⟩ <;> simp [watchTickChan, Read, chanSend, hne, hlen]

/-- C3, witness for the amended theorem at concrete inputs. -/
theorem emit_blocks_on_full_slot_witness :
    ((0 : Int) ≠ 1 ∧ ([7] : List Nat) ≠ []) ∧
    (chanSend (some [9]) ([7] : List Nat) = none ∧
     chanSend (none : Option (List Nat)) [7] = some (some [7]) ∧
     watchTickChan Format.fmtText 0 (some [9]) 1 (NativeRead.present [7]) = none ∧
     watchTickChan Format.fmtText 0 none 1 (NativeRead.present [7]) = some (1, some [7])) :=
  ⟨⟨by decide, by decide⟩,
   emit_blocks_on_full_slot Format.fmtText 0 1 [9] [7] (by decide) (by decide)⟩

/-- C5, counterexample: a single first-time copy of text "42" (bytes
[52, 50]) makes `Watch` with the Text format emit it right away, while the
double-submit rule of the detector emits nothing for a lone first
occurrence — so `Watch`'s Text stream carries payloads that are not
confirmed events. -/
theorem watch_text_first_copy_emits_cex :
    (watchRun Format.fmtText 0 [(1, NativeRead.present [52, 50])]).2.2 = [[52, 50]] ∧
    (adaptRun (adaptInit 0 0) [(0, 1, NativeRead.present [52, 50])]).2 = [] := by
  decide

/-- C5, amended: `Watch` applies the same raw change-triggered emission to
every format — its behaviour is identical for Text and Image, with no
double-submit confirmation overlay; the overlay exists only on the stream
of the separate `AdaptWatchDoubleText` function. -/
theorem watch_format_independent (lc : Int) (ticks : List (Int × NativeRead)) :
    watchRun Format.fmtText lc ticks = watchRun Format.fmtImage lc ticks := by
  induction ticks generalizing lc with
  | nil => rfl
  | cons tk ticks ih =>
    obtain ⟨c, resp⟩ := tk
    have hstep : watchTick Format.fmtText lc c resp = watchTick Format.fmtImage lc c resp := by
      cases resp <;> rfl
    simp only [watchRun, hstep, ih]

/-- C6, counterexample: on a tick that detects a change and reads the
non-empty text "42", the session ends the tick with `missCount = 1`, not 0:
the change branch zeroes it, but the trailing `if lastCount == this` block
— whose guard now holds because the baseline was just updated — increments
it again. -/
theorem miss_streak_after_change_cex :
    ((adaptTick (adaptInit 0 0) 7 1 (NativeRead.present [52, 50])).1).missCount ≠ 0 := by
  decide

/-- C6, amended: at the end of every tick on which a counter change was
detected and non-empty text was read, the poll interval has been reset to
the fast 100ms rate, but the miss-streak counter equals 1 rather than 0 —
the reset to 0 is immediately followed by the unchanged-counter block
incrementing it, since `lastCount` was just set to the sampled value. -/
theorem change_tick_fast_interval_miss_one
    (st : AdaptState) (now c : Int) (bs : List Nat)
    (hcnt : st.lastCount ≠ c) (hbs : bs ≠ []) :
    ((adaptTick st now c (NativeRead.present bs)).1).missCount = 1 ∧
    ((adaptTick st now c (NativeRead.present bs)).1).interval = 100 := by
  have hlen : ¬ bs.length = 0 := fun h0 => hbs (List.length_eq_zero.mp h0)
  have htext : ¬ (bytesToString bs = "") := bytesToString_ne_empty hbs
  by_cases hit : bytesToString bs = st.lastText ∧ now - st.lastMill < 500
  · have hlt : ¬ st.lastText = "" := fun h0 => htext (hit.1.trans h0)
    simp [adaptTick, Read, missStep, hlen, htext, hcnt, hit, hlt]
  · simp [adaptTick, Read, missStep, hlen, htext, hcnt, hit]

/-- C6, witness for the amended theorem at concrete inputs. -/
theorem change_tick_fast_interval_miss_one_witness :
    ((adaptInit 0 0).lastCount ≠ 1 ∧ ([52, 50] : List Nat) ≠ []) ∧
    (((adaptTick (adaptInit 0 0) 7 1 (NativeRead.present [52, 50])).1).missCount = 1 ∧
     ((adaptTick (adaptInit 0 0) 7 1 (NativeRead.present [52, 50])).1).interval = 100) :=
  ⟨⟨by decide, by decide⟩,
   change_tick_fast_interval_miss_one (adaptInit 0 0) 7 1 [52, 50] (by decide) (by decide)⟩

/-- A payload emitted by a `Watch` tick is nonempty. -/
lemma watchTick_emit_ne {t : Format} {lc c : Int} {resp : NativeRead} {b : List Nat}
    (h : (watchTick t lc c resp).2.2 = some b) : b ≠ [] := by
  unfold watchTick at h
  by_cases hne : lc ≠ c
  · rw [if_pos hne] at h
    cases hr : (Read t resp).1 with
    | none => rw [hr] at h; simp at h
    | some b' =>
      rw [hr] at h
      simp at h
      exact h ▸ Read_fst_some hr
  · rw [if_neg hne] at h
    simp at h

/-- A text emitted by an `AdaptWatchDoubleText` tick is nonempty. -/
lemma adaptTick_emit_ne {st : AdaptState} {now c : Int} {resp : NativeRead} {s : String}
    (h : (adaptTick st now c resp).2 = some s) : s ≠ "" := by
  simp only [adaptTick] at h
  split at h
  · split at h
    · simp at h
    · rename_i b hb
      split at h
      · simp at h
      · rename_i htext
        rw [missStep_snd] at h
        split at h
        · exact fun hs => htext ((Option.some_inj.mp h).trans hs)
        · simp at h
  · rw [missStep_snd] at h
    simp at h

/-- Every payload on a `Watch` stream is nonempty. -/
lemma watchRun_emits_ne (t : Format) :
    ∀ (lc : Int) (ticks : List (Int × NativeRead)) (p : List Nat),
      p ∈ (watchRun t lc ticks).2.2 → p ≠ [] := by
  intro lc ticks
  induction ticks generalizing lc with
  | nil => intro p hp; simp [watchRun] at hp
  | cons tk ticks ih =>
    obtain ⟨c, resp⟩ := tk
    intro p hp
    simp only [watchRun] at hp
    cases hemit : (watchTick t lc c resp).2.2 with
    | none =>
      simp only [hemit] at hp
      exact ih _ p hp
    | some b =>
      simp only [hemit] at hp
      rcases List.mem_cons.mp hp with hpb | hp'
      · exact hpb ▸ watchTick_emit_ne hemit
      · exact ih _ p hp'

/-- Every text on an `AdaptWatchDoubleText` stream is nonempty. -/
lemma adaptRun_emits_ne :
    ∀ (st : AdaptState) (ticks : List (Int × Int × NativeRead)) (s : String),
      s ∈ (adaptRun st ticks).2 → s ≠ "" := by
  intro st ticks
  induction ticks generalizing st with
  | nil => intro s hs; simp [adaptRun] at hs
  | cons tk ticks ih =>
    obtain ⟨now, c, resp⟩ := tk
    intro s hs
    simp only [adaptRun] at hs
    cases hemit : (adaptTick st now c resp).2 with
    | none =>
      simp only [hemit] at hs
      exact ih _ s hs
    | some e =>
      simp only [hemit] at hs
      rcases List.mem_cons.mp hs with hse | hs'
      · exact hse ▸ adaptTick_emit_ne hemit
      · exact ih _ s hs'

/-- C9: every value emitted on a `Watch` or `AdaptWatchDoubleText` output
stream is non-empty — `Read` maps both absent and zero-length content to a
nil payload, and the poll loops skip nil payloads (and, for text, empty
strings), so a consumer never receives a nil or zero-length payload. -/
theorem emitted_payloads_nonempty :
    (∀ (t : Format) (lc : Int) (ticks : List (Int × NativeRead)) (p : List Nat),
        p ∈ (watchRun t lc ticks).2.2 → p ≠ []) ∧
    (∀ (st : AdaptState) (ticks : List (Int × Int × NativeRead)) (s : String),
        s ∈ (adaptRun st ticks).2 → s ≠ "") :=
  ⟨fun t lc ticks p hp => watchRun_emits_ne t lc ticks p hp,
   fun st ticks s hs => adaptRun_emits_ne st ticks s hs⟩

/-- C9, witness on concrete traces that do emit. -/
theorem emitted_payloads_nonempty_witness :
    (([7] : List Nat) ∈ (watchRun Format.fmtText 0 [(1, NativeRead.present [7])]).2.2 ∧
      ([7] : List Nat) ≠ []) ∧
    ("a" ∈ (adaptRun (adaptInit 0 0)
        [(0, 1, NativeRead.present [97]), (100, 2, NativeRead.present [97])]).2 ∧
      "a" ≠ "") :=
  ⟨⟨by decide,
    emitted_payloads_nonempty.1 Format.fmtText 0 [(1, NativeRead.present [7])] [7] (by decide)⟩,
   ⟨by decide,
    emitted_payloads_nonempty.2 (adaptInit 0 0)
      [(0, 1, NativeRead.present [97]), (100, 2, NativeRead.present [97])] "a" (by decide)⟩⟩

/-- C10, witness at n = 20000000 (inside the seconds range). -/
theorem handleNum_ranges_witness :
    (0 : Int) < 20000000 ∧
    ((10000000 < (20000000 : Int) ∧ (20000000 : Int) < 10013221020 →
        handleNum 20000000 = [20000000]) ∧
     (10013221020 < (20000000 : Int) ∧ (20000000 : Int) < 2101322102000 →
        handleNum 20000000 = [(20000000 : Int) / 1000]) ∧
     (¬ ((10000000 < (20000000 : Int) ∧ (20000000 : Int) < 10013221020) ∨
         (10013221020 < (20000000 : Int) ∧ (20000000 : Int) < 2101322102000)) →
        handleNum 20000000 = []) ∧
     handleNum 10013221020 = []) :=
  ⟨by decide, handleNum_ranges 20000000 (by decide)⟩

end Clip
